import Mathlib

/-!
Shallow embedding of `src/data_entry_bot/main.py` (a batch UI-automation bot
that drives Notepad to save fetched posts as text files), together with
theorems checking the natural-language specification against the code.

Nondeterminism of the environment (which pywinauto calls raise, whether
`os.remove` fails, ...) is made explicit as oracle inputs: each record
carries a `PostEnv` describing the outcome of every fallible external call
made while processing it.  The filesystem is a map from path to content.
Log output is modelled structurally: one `LogMsg` constructor per distinct
format string in the source, carrying the formatted arguments.
-/

namespace DataEntryBot

/-- The exception classes that the source distinguishes:
`AppStartError`, `ElementNotFoundError`, `pywinauto.timings.TimeoutError`,
`RuntimeError`, `OSError`, and everything else. -/
inductive Exc where
  | appStartError
  | elementNotFound
  | timeoutFault
  | runtimeFault (msg : String)
  | osError
  | generic (msg : String)
deriving DecidableEq

/-- The tuple `(ElementNotFoundError, PywinautoTimeoutError, RuntimeError)`
caught in `launch_notepad_with_retry` (line 58). -/
def Exc.isLaunchRecoverable : Exc → Bool
  | .elementNotFound => true
  | .timeoutFault => true
  | .runtimeFault _ => true
  | _ => false

/-- The tuple `(ElementNotFoundError, PywinautoTimeoutError)` caught in
`type_text_into_notepad` (line 77). -/
def Exc.isTypeCaught : Exc → Bool
  | .elementNotFound => true
  | .timeoutFault => true
  | _ => false

/-- Logging levels used by the source. -/
inductive Level where
  | info
  | warning
  | error
deriving DecidableEq

/-- One constructor per distinct log format string in the source, carrying
the formatted arguments that matter (record identifiers, counts, paths). -/
inductive LogMsg where
  | fetchFailed
  | launched (attempt : Nat)
  | launchFailed (attempt : Nat)
  | typeFailed
  | saveRetryFailed
  | saved (path : String)
  | closeFailed
  | closeStrayFailed
  | noNotepadRunning
  | notInstalled
  | processFailed (idStr : String)
  | completed (count : Nat)
  | fatal
deriving DecidableEq

/-- A log line: a level and a structured message. -/
structure LogEntry where
  level : Level
  msg : LogMsg
deriving DecidableEq

/-- The filesystem: a map from full path to file content. -/
abbrev Fs := String → Option String

/-- Write `content` at `p` (what a successful save-dialog script does). -/
def fsWrite (p content : String) (fs : Fs) : Fs :=
  fun q => if q = p then some content else fs q

/-- Remove the file at `p` (what `os.remove` does). -/
def fsErase (p : String) (fs : Fs) : Fs :=
  fun q => if q = p then none else fs q

/-- Empty filesystem. -/
def fsEmpty : Fs := fun _ => none

/-! ## launch_notepad_with_retry (lines 44-62) -/

/-- Result of `launch_notepad_with_retry`: the raised exception or the
attempt number that succeeded, the number of `Application(...).start` calls
made, the inter-attempt sleeps (milliseconds), and the log lines emitted. -/
structure LaunchResult where
  result : Except Exc Nat
  startCalls : Nat
  sleepsMs : List Nat
  logs : List LogEntry

/-- Message of the `RuntimeError` raised when all attempts are exhausted
(line 62). -/
def launchExhaustedMsg (maxAttempts : Nat) : String :=
  "Failed to launch Notepad after " ++ Nat.repr maxAttempts ++ " attempts"

/-- The `for attempt in range(1, max_attempts + 1)` loop of
`launch_notepad_with_retry`.  `env i` is the exception raised by the body of
attempt `i` (`none` = the launch succeeded).  `AppStartError` is re-raised
at once (lines 56-57); the recoverable tuple is logged, the fixed delay is
slept, and the loop continues (lines 58-61); any other exception
propagates; after the loop a `RuntimeError` is raised (line 62). -/
def launchGo (env : Nat → Option Exc) (delayMs maxAttempts : Nat) :
    Nat → Nat → LaunchResult
  | _, 0 =>
    ⟨.error (.runtimeFault (launchExhaustedMsg maxAttempts)), 0, [], []⟩
  | attempt, remaining + 1 =>
    match env attempt with
    | none => ⟨.ok attempt, 1, [], [⟨.info, .launched attempt⟩]⟩
    | some e =>
      if e = .appStartError then ⟨.error .appStartError, 1, [], []⟩
      else if e.isLaunchRecoverable then
        let rest := launchGo env delayMs maxAttempts (attempt + 1) remaining
        ⟨rest.result, rest.startCalls + 1, delayMs :: rest.sleepsMs,
          ⟨.warning, .launchFailed attempt⟩ :: rest.logs⟩
      else ⟨.error e, 1, [], []⟩

/-- `max_attempts: int = 3` (line 44). -/
def defaultMaxAttempts : Nat := 3

/-- `delay_seconds: float = .2`, i.e. 200 milliseconds (line 44). -/
def defaultDelayMs : Nat := 200

/-- `launch_notepad_with_retry` (lines 44-62), with the retry parameters
explicit (the source leaves them at their defaults). -/
def launch_notepad_with_retry (env : Nat → Option Exc)
    (maxAttempts delayMs : Nat) : LaunchResult :=
  launchGo env delayMs maxAttempts 1 maxAttempts

/-! ## type_text_into_notepad (lines 65-78) -/

/-- Result of a step that can raise and can log. -/
structure StepResult where
  result : Except Exc Unit
  logs : List LogEntry

/-- `type_text_into_notepad` (lines 65-78).  `resolveExc` is an exception
raised by `app.top_window()` / `dlg.wait("ready")` (lines 67-68), which sit
OUTSIDE the `try` and therefore propagate.  `typeExc` is an exception
raised inside the `try` by `set_focus` / `send_keys` (lines 70-75): the
caught tuple is logged as a warning and swallowed (lines 77-78); anything
else propagates. -/
def type_text_into_notepad (resolveExc typeExc : Option Exc) : StepResult :=
  match resolveExc with
  | some e => ⟨.error e, []⟩
  | none =>
    match typeExc with
    | none => ⟨.ok (), []⟩
    | some e =>
      if e.isTypeCaught then ⟨.ok (), [⟨.warning, .typeFailed⟩]⟩
      else ⟨.error e, []⟩

/-- Content of the editor buffer after the type step: the record body if
delivery succeeded, otherwise whatever the editor was left holding. -/
def bufferAfterType (body : String) (typeExc : Option Exc)
    (faultText : String) : String :=
  match typeExc with
  | none => body
  | some _ => faultText

/-! ## save_notepad_content (lines 80-109) -/

/-- Result of `save_notepad_content`: outcome, resulting filesystem, log
lines, number of times the keystroke script `_save_via_keystrokes` was
invoked, and the number of exceptions caught without emitting any log
line. -/
structure SaveResult where
  result : Except Exc Unit
  fs : Fs
  logs : List LogEntry
  keystrokeCalls : Nat
  silentCatches : Nat

/-- The pre-delete of lines 84-88: if a file exists at `path` it is removed;
a failing `os.remove` (`removeOk = false`) is swallowed and leaves the file. -/
def preDeleteFs (removeOk : Bool) (path : String) (fs : Fs) : Fs :=
  match fs path with
  | none => fs
  | some _ => if removeOk then fsErase path fs else fs

/-- The `except OSError: pass` of lines 87-88 catches an exception and emits
no log line exactly when a file existed and `os.remove` failed. -/
def preDeleteSilent (removeOk : Bool) (path : String) (fs : Fs) : Nat :=
  match fs path with
  | none => 0
  | some _ => if removeOk then 0 else 1

/-- `save_notepad_content` (lines 80-109).  After the pre-delete, the
keystroke script is invoked exactly once (line 106); if it raises
(`saveExc = some e`) the exception is logged and re-raised (lines 107-109).
`wroteAnyway` records whether a failing script had nevertheless already
flushed the file. -/
def save_notepad_content (removeOk : Bool) (saveExc : Option Exc)
    (wroteAnyway : Bool) (path content : String) (fs : Fs) : SaveResult :=
  let fs1 := preDeleteFs removeOk path fs
  let silent := preDeleteSilent removeOk path fs
  match saveExc with
  | none => ⟨.ok (), fsWrite path content fs1, [], 1, silent⟩
  | some e =>
    ⟨.error e, if wroteAnyway then fsWrite path content fs1 else fs1,
      [⟨.error, .saveRetryFailed⟩], 1, silent⟩

/-! ## close_notepad (lines 111-117) -/

/-- `close_notepad` catches every exception and logs a warning (lines
116-117); it never raises. -/
def close_notepad (closeExc : Option Exc) : StepResult :=
  match closeExc with
  | none => ⟨.ok (), []⟩
  | some _ => ⟨.ok (), [⟨.warning, .closeFailed⟩]⟩

/-! ## Records and process_post (lines 120-133) -/

/-- A fetched post: a JSON object that may lack the `id` or `body` key. -/
structure Post where
  id : Option Nat
  body : Option String
deriving DecidableEq

/-- `post.get("id", "unknown")` as formatted into the filename (line 122). -/
def postIdStr (p : Post) : String :=
  match p.id with
  | some n => Nat.repr n
  | none => "unknown"

/-- `post.get("id")` as formatted into the failure log of line 164 (no
default, so a missing key prints as `None`). -/
def loggedIdStr (p : Post) : String :=
  match p.id with
  | some n => Nat.repr n
  | none => "None"

/-- `post.get("body", "")` (line 123). -/
def postBody (p : Post) : String := p.body.getD ""

/-- `os.path.join(output_dir, f"post {post_id}.txt")` (lines 124-125). -/
def outputPath (outputDir : String) (p : Post) : String :=
  outputDir ++ "/" ++ ("post " ++ postIdStr p ++ ".txt")

/-- Environment oracle for one record: the outcome of every fallible
external call made while processing it. -/
structure PostEnv where
  launchExc : Nat → Option Exc
  resolveExc : Option Exc
  typeExc : Option Exc
  faultText : String
  removeOk : Bool
  saveExc : Option Exc
  wroteAnyway : Bool
  closeExc : Option Exc

/-- Result of `process_post`. -/
structure PostResult where
  result : Except Exc Unit
  fs : Fs
  logs : List LogEntry
  startCalls : Nat
  keystrokeCalls : Nat
  silentCatches : Nat

/-- `process_post` (lines 120-133): derive the path, launch with retry,
then type, save (logging `Saved: <path>` on success, line 131), with the
close step in a `finally` so it always runs and its logs come last. -/
def process_post (env : PostEnv) (maxAttempts delayMs : Nat)
    (outputDir : String) (p : Post) (fs : Fs) : PostResult :=
  let path := outputPath outputDir p
  let lr := launch_notepad_with_retry env.launchExc maxAttempts delayMs
  match lr.result with
  | .error e => ⟨.error e, fs, lr.logs, lr.startCalls, 0, 0⟩
  | .ok _ =>
    let tr := type_text_into_notepad env.resolveExc env.typeExc
    let cr := close_notepad env.closeExc
    match tr.result with
    | .error e =>
      ⟨.error e, fs, lr.logs ++ tr.logs ++ cr.logs, lr.startCalls, 0, 0⟩
    | .ok _ =>
      let content := bufferAfterType (postBody p) env.typeExc env.faultText
      let sr := save_notepad_content env.removeOk env.saveExc env.wroteAnyway
        path content fs
      match sr.result with
      | .error e =>
        ⟨.error e, sr.fs, lr.logs ++ tr.logs ++ sr.logs ++ cr.logs,
          lr.startCalls, sr.keystrokeCalls, sr.silentCatches⟩
      | .ok _ =>
        ⟨.ok (), sr.fs,
          lr.logs ++ tr.logs ++ sr.logs ++ [⟨.info, .saved path⟩] ++ cr.logs,
          lr.startCalls, sr.keystrokeCalls, sr.silentCatches⟩

/-! ## close_all_open_notepads (lines 135-148) and main (lines 150-171) -/

/-- Environment for the pre-loop cleanup: whether `connect` found a running
Notepad, and the per-window close outcomes. -/
structure BatchEnv where
  strayConnectOk : Bool
  strayCloseExcs : List (Option Exc)

/-- `close_all_open_notepads` (lines 135-148): every caught exception is
logged (warning per window, info when nothing is running); nothing raises. -/
def close_all_open_notepads (benv : BatchEnv) : List LogEntry :=
  if benv.strayConnectOk then
    benv.strayCloseExcs.filterMap
      (fun o => o.map fun _ => (⟨.warning, .closeStrayFailed⟩ : LogEntry))
  else [⟨.info, .noNotepadRunning⟩]

/-- The failure log of line 164: `Failed to process post %s`. -/
def failLog (p : Post) : LogEntry := ⟨.error, .processFailed (loggedIdStr p)⟩

/-- The completion log of line 167: `Completed generating %d posts`. -/
def completedLog (n : Nat) : LogEntry := ⟨.info, .completed n⟩

/-- Result of the per-record loop of `main` (lines 157-166). -/
structure LoopResult where
  aborted : Bool
  fs : Fs
  logs : List LogEntry
  processed : Nat
  startCalls : Nat
  silentCatches : Nat

/-- The `for post in posts` loop of `main` (lines 157-166): on
`AppStartError` log and return 1 at once (lines 160-162); on any other
exception log the record identifier and continue (lines 163-166). -/
def mainLoop (maxAttempts delayMs : Nat) (outputDir : String) :
    List (Post × PostEnv) → Fs → LoopResult
  | [], fs => ⟨false, fs, [], 0, 0, 0⟩
  | (p, env) :: rest, fs =>
    let r := process_post env maxAttempts delayMs outputDir p fs
    match r.result with
    | .ok _ =>
      let lr := mainLoop maxAttempts delayMs outputDir rest r.fs
      ⟨lr.aborted, lr.fs, r.logs ++ lr.logs, lr.processed + 1,
        r.startCalls + lr.startCalls, r.silentCatches + lr.silentCatches⟩
    | .error e =>
      if e = .appStartError then
        ⟨true, r.fs, r.logs ++ [⟨.error, .notInstalled⟩], 1,
          r.startCalls, r.silentCatches⟩
      else
        let lr := mainLoop maxAttempts delayMs outputDir rest r.fs
        ⟨lr.aborted, lr.fs, r.logs ++ [failLog p] ++ lr.logs, lr.processed + 1,
          r.startCalls + lr.startCalls, r.silentCatches + lr.silentCatches⟩

/-- Result of one whole run of `main`. -/
structure RunResult where
  exitCode : Nat
  fs : Fs
  logs : List LogEntry
  processed : Nat
  startCalls : Nat
  silentCatches : Nat

/-- `main` (lines 150-171): a fetch failure is fatal (logged twice: by
`fetch_posts` and by the outer handler) with exit code 1; otherwise close
stray windows, run the loop, and on normal completion log the count of
fetched posts and return 0. -/
def mainRun (maxAttempts delayMs : Nat) (outputDir : String)
    (benv : BatchEnv) (fetched : Except Exc (List (Post × PostEnv)))
    (fs : Fs) : RunResult :=
  match fetched with
  | .error _ =>
    ⟨1, fs, [⟨.error, .fetchFailed⟩, ⟨.error, .fatal⟩], 0, 0, 0⟩
  | .ok items =>
    let pre := close_all_open_notepads benv
    let lr := mainLoop maxAttempts delayMs outputDir items fs
    if lr.aborted then
      ⟨1, lr.fs, pre ++ lr.logs, lr.processed, lr.startCalls,
        lr.silentCatches⟩
    else
      ⟨0, lr.fs, pre ++ lr.logs ++ [completedLog items.length], lr.processed,
        lr.startCalls, lr.silentCatches⟩

/-! ## Derived definitions used by the verification -/

/-- Combine the loop results of two consecutive record segments (the first
of which did not abort). -/
def loopCombine (ra rb : LoopResult) : LoopResult :=
  ⟨rb.aborted, rb.fs, ra.logs ++ rb.logs, ra.processed + rb.processed,
    ra.startCalls + rb.startCalls, ra.silentCatches + rb.silentCatches⟩

/-- Recognize the `Saved: <path>` log line emitted when a record's session
completes the Save step (line 131). -/
def isSavedMsg (l : LogEntry) : Bool :=
  match l.msg with
  | .saved _ => true
  | _ => false

/-- Recognize the `Completed generating %d posts` summary line (line 167). -/
def isCompletedMsg (l : LogEntry) : Bool :=
  match l.msg with
  | .completed _ => true
  | _ => false

/-- Number of records whose session completed the Save step, as witnessed
by the run's `Saved:` log lines. -/
def savedCount (logs : List LogEntry) : Nat := (logs.filter isSavedMsg).length

/-- A filesystem transformer that, pointwise, either forces a path to a
value independent of the input filesystem or leaves it untouched. -/
def Overwriting (f : Fs → Fs) : Prop :=
  ∀ fs fs' p, f fs p = f fs' p ∨ (f fs p = fs p ∧ f fs' p = fs' p)

/-- An environment in which every external call succeeds. -/
def okEnv : PostEnv :=
  ⟨fun _ => none, none, none, "", true, none, false, none⟩

/-- The warning logs emitted by `remaining` consecutive failed launch
attempts starting at attempt number `attempt`. -/
def launchWarnLogs (attempt remaining : Nat) : List LogEntry :=
  (List.range remaining).map fun i => ⟨.warning, .launchFailed (attempt + i)⟩

/-! ## Concrete runs used as witnesses and counterexamples -/

/-- A record with id 1. -/
def cexPost1 : Post := ⟨some 1, some "alpha"⟩

/-- A record with id 2. -/
def cexPost2 : Post := ⟨some 2, some "beta"⟩

/-- An environment whose keystroke save script raises. -/
def cexFailSaveEnv : PostEnv :=
  ⟨fun _ => none, none, none, "", true, some (.runtimeFault "save failed"),
    false, none⟩

/-- An environment whose first launch attempt raises `AppStartError`. -/
def cexAppStartEnv : PostEnv :=
  ⟨fun _ => some .appStartError, none, none, "", true, none, false, none⟩

/-- An environment whose every launch attempt times out. -/
def cexRetryEnv : PostEnv :=
  ⟨fun _ => some .timeoutFault, none, none, "", true, none, false, none⟩

/-- An environment in which the pre-save `os.remove` raises `OSError`. -/
def cexRemoveFailEnv : PostEnv :=
  ⟨fun _ => none, none, none, "", false, none, false, none⟩

/-- A stray-window environment with nothing to close. -/
def cexBatchEnv : BatchEnv := ⟨true, []⟩

/-- Two records: the first one's save script raises, the second succeeds. -/
def cexItems : List (Post × PostEnv) :=
  [(cexPost1, cexFailSaveEnv), (cexPost2, okEnv)]

/-- The run over `cexItems` starting from an empty sink. -/
def cexRun : RunResult := mainRun 3 200 "out" cexBatchEnv (.ok cexItems) fsEmpty

/-- A sink already holding a file at record 1's output path. -/
def cexOldFileFs : Fs :=
  fun q => if q = "out/post 1.txt" then some "old" else none

/-- A run over one record whose pre-save delete fails with `OSError`. -/
def cexSilentRun : RunResult :=
  mainRun 3 200 "out" cexBatchEnv (.ok [(cexPost1, cexRemoveFailEnv)])
    cexOldFileFs

/-! ## Helper lemmas -/

/-- `preDeleteFs` leaves every other path untouched. -/
theorem preDeleteFs_ne (ro : Bool) (path : String) (fs : Fs) (q : String)
    (h : q ≠ path) : preDeleteFs ro path fs q = fs q := by
  unfold preDeleteFs
  cases fs path
  · rfl
  · cases ro <;> simp [fsErase, h]

/-- After a successful pre-delete nothing is left at the target path. -/
theorem preDeleteFs_true_self (path : String) (fs : Fs) :
    preDeleteFs true path fs path = none := by
  cases hfp : fs path <;> simp [preDeleteFs, hfp, fsErase]

/-- A failing `os.remove` leaves the filesystem unchanged. -/
theorem preDeleteFs_false (path : String) (fs : Fs) :
    preDeleteFs false path fs = fs := by
  cases hfp : fs path <;> simp [preDeleteFs, hfp]

/-- If the first launch attempt succeeds, the retry wrapper reports success
on attempt 1 with a single start call. -/
theorem launch_first_ok (env : Nat → Option Exc) (ma dm : Nat)
    (h : env 1 = none) (hma : 1 ≤ ma) :
    launch_notepad_with_retry env ma dm
      = ⟨.ok 1, 1, [], [⟨.info, .launched 1⟩]⟩ := by
  obtain ⟨m, rfl⟩ : ∃ m, ma = m + 1 := ⟨ma - 1, by omega⟩
  simp [launch_notepad_with_retry, launchGo, h]

/-- If the first launch attempt raises `AppStartError`, the retry wrapper
re-raises at once after a single start call, with no sleep and no log. -/
theorem launch_first_appStart (env : Nat → Option Exc) (ma dm : Nat)
    (h : env 1 = some .appStartError) (hma : 1 ≤ ma) :
    launch_notepad_with_retry env ma dm
      = ⟨.error .appStartError, 1, [], []⟩ := by
  obtain ⟨m, rfl⟩ : ∃ m, ma = m + 1 := ⟨ma - 1, by omega⟩
  simp [launch_notepad_with_retry, launchGo, h]

/-- `process_post` when the first launch attempt raises `AppStartError`:
the exception propagates before any file or log activity. -/
theorem process_post_appStart (env : PostEnv) (ma dm : Nat) (dir : String)
    (p : Post) (fs : Fs)
    (h : env.launchExc 1 = some .appStartError) (hma : 1 ≤ ma) :
    process_post env ma dm dir p fs
      = ⟨.error .appStartError, fs, [], 1, 0, 0⟩ := by
  simp [process_post, launch_first_appStart env.launchExc ma dm h hma]

/-- Unfolding the record loop at a record whose processing raised
`AppStartError`: the loop stops at once. -/
theorem mainLoop_cons_appStart (ma dm : Nat) (dir : String) (p : Post)
    (env : PostEnv) (rest : List (Post × PostEnv)) (fs : Fs)
    (hr : (process_post env ma dm dir p fs).result = .error .appStartError) :
    mainLoop ma dm dir ((p, env) :: rest) fs
      = ⟨true, (process_post env ma dm dir p fs).fs,
          (process_post env ma dm dir p fs).logs ++ [⟨.error, .notInstalled⟩],
          1, (process_post env ma dm dir p fs).startCalls,
          (process_post env ma dm dir p fs).silentCatches⟩ := by
  simp [mainLoop, hr]

/-- The record loop distributes over append when its first segment did not
abort. -/
theorem mainLoop_append_not_aborted (ma dm : Nat) (dir : String) :
    ∀ (a b : List (Post × PostEnv)) (fs : Fs),
    (mainLoop ma dm dir a fs).aborted = false →
    mainLoop ma dm dir (a ++ b) fs
      = loopCombine (mainLoop ma dm dir a fs)
          (mainLoop ma dm dir b (mainLoop ma dm dir a fs).fs) := by
  intro a
  induction a with
  | nil =>
    intro b fs _
    simp [mainLoop, loopCombine]
  | cons hd tl ih =>
    intro b fs hab
    obtain ⟨p, env⟩ := hd
    rcases hr : (process_post env ma dm dir p fs).result with e | u
    · by_cases he : e = Exc.appStartError
      · subst he; simp [mainLoop, hr] at hab
      · have htl : (mainLoop ma dm dir tl
            (process_post env ma dm dir p fs).fs).aborted = false := by
          simpa [mainLoop, hr, he] using hab
        simp [mainLoop, hr, he, ih b _ htl, loopCombine, Nat.add_assoc,
          Nat.add_comm, Nat.add_left_comm, List.append_assoc]
    · have htl : (mainLoop ma dm dir tl
          (process_post env ma dm dir p fs).fs).aborted = false := by
        simpa [mainLoop, hr] using hab
      simp [mainLoop, hr, ih b _ htl, loopCombine, Nat.add_assoc,
        Nat.add_comm, Nat.add_left_comm, List.append_assoc]

/-- A non-aborting loop processes every record. -/
theorem mainLoop_processed_eq_length (ma dm : Nat) (dir : String) :
    ∀ (items : List (Post × PostEnv)) (fs : Fs),
    (mainLoop ma dm dir items fs).aborted = false →
    (mainLoop ma dm dir items fs).processed = items.length := by
  intro items
  induction items with
  | nil => intro fs _; simp [mainLoop]
  | cons hd tl ih =>
    intro fs hab
    obtain ⟨p, env⟩ := hd
    rcases hr : (process_post env ma dm dir p fs).result with e | u
    · by_cases he : e = Exc.appStartError
      · subst he; simp [mainLoop, hr] at hab
      · have htl : (mainLoop ma dm dir tl
            (process_post env ma dm dir p fs).fs).aborted = false := by
          simpa [mainLoop, hr, he] using hab
        simp [mainLoop, hr, he, ih _ htl]
    · have htl : (mainLoop ma dm dir tl
          (process_post env ma dm dir p fs).fs).aborted = false := by
        simpa [mainLoop, hr] using hab
      simp [mainLoop, hr, ih _ htl]

/-- When every attempt in the window fails recoverably, the launch loop
makes every start call, sleeps the fixed delay after each, logs each
failure, and ends by raising the exhaustion `RuntimeError`. -/
theorem launchGo_exhausted (env : Nat → Option Exc) (dm ma : Nat) :
    ∀ (remaining attempt : Nat),
    (∀ i, attempt ≤ i → i < attempt + remaining →
        ∃ e, env i = some e ∧ e.isLaunchRecoverable = true) →
    launchGo env dm ma attempt remaining
      = ⟨.error (.runtimeFault (launchExhaustedMsg ma)), remaining,
          List.replicate remaining dm, launchWarnLogs attempt remaining⟩ := by
  intro remaining
  induction remaining with
  | zero => intro attempt _; simp [launchGo, launchWarnLogs]
  | succ m ih =>
    intro attempt h
    obtain ⟨e, he, hrec⟩ := h attempt le_rfl (by omega)
    have hne : e ≠ Exc.appStartError := by
      intro h'; subst h'; simp [Exc.isLaunchRecoverable] at hrec
    have ih' := ih (attempt + 1) (fun i h1 h2 => h i (by omega) (by omega))
    simp [launchGo, he, hne, hrec, ih', launchWarnLogs,
      List.replicate_succ, List.range_succ_eq_map, List.map_map,
      Function.comp, Nat.add_comm, Nat.add_left_comm, Nat.add_assoc]

/-- `launch_notepad_with_retry` under total recoverable failure. -/
theorem launch_exhausted (env : Nat → Option Exc) (ma dm : Nat)
    (h : ∀ i, 1 ≤ i → i ≤ ma →
        ∃ e, env i = some e ∧ e.isLaunchRecoverable = true) :
    launch_notepad_with_retry env ma dm
      = ⟨.error (.runtimeFault (launchExhaustedMsg ma)), ma,
          List.replicate ma dm, launchWarnLogs 1 ma⟩ := by
  exact launchGo_exhausted env dm ma ma 1 (fun i h1 h2 => h i h1 (by omega))

/-- `process_post` when the launch step raised: the exception propagates
with no filesystem activity. -/
theorem process_post_launch_error (env : PostEnv) (ma dm : Nat)
    (dir : String) (p : Post) (fs : Fs) (e : Exc)
    (h : (launch_notepad_with_retry env.launchExc ma dm).result = .error e) :
    process_post env ma dm dir p fs
      = ⟨.error e, fs, (launch_notepad_with_retry env.launchExc ma dm).logs,
          (launch_notepad_with_retry env.launchExc ma dm).startCalls,
          0, 0⟩ := by
  simp [process_post, h]

/-- Unfolding the record loop at a record whose processing failed with a
non-fatal exception: log and continue with the rest. -/
theorem mainLoop_cons_failure (ma dm : Nat) (dir : String) (p : Post)
    (env : PostEnv) (rest : List (Post × PostEnv)) (fs : Fs) (e : Exc)
    (hr : (process_post env ma dm dir p fs).result = .error e)
    (hne : e ≠ .appStartError) :
    mainLoop ma dm dir ((p, env) :: rest) fs
      = ⟨(mainLoop ma dm dir rest (process_post env ma dm dir p fs).fs).aborted,
          (mainLoop ma dm dir rest (process_post env ma dm dir p fs).fs).fs,
          (process_post env ma dm dir p fs).logs ++ [failLog p]
            ++ (mainLoop ma dm dir rest (process_post env ma dm dir p fs).fs).logs,
          (mainLoop ma dm dir rest (process_post env ma dm dir p fs).fs).processed + 1,
          (process_post env ma dm dir p fs).startCalls
            + (mainLoop ma dm dir rest (process_post env ma dm dir p fs).fs).startCalls,
          (process_post env ma dm dir p fs).silentCatches
            + (mainLoop ma dm dir rest (process_post env ma dm dir p fs).fs).silentCatches⟩ := by
  simp [mainLoop, hr, hne]

/-- A log line of the loop also appears in the whole run's log. -/
theorem mainRun_ok_logs_mem (ma dm : Nat) (dir : String) (benv : BatchEnv)
    (items : List (Post × PostEnv)) (fs : Fs) (l : LogEntry)
    (h : l ∈ (mainLoop ma dm dir items fs).logs) :
    l ∈ (mainRun ma dm dir benv (.ok items) fs).logs := by
  simp only [mainRun]
  split <;> simp [h]

/-- Applying an overwriting transformer twice is the same as applying it
once. -/
theorem overwriting_self_comp {f : Fs → Fs} (hf : Overwriting f) (fs : Fs) :
    f (f fs) = f fs := by
  funext q
  rcases hf (f fs) fs q with h | ⟨h1, _⟩
  · exact h
  · exact h1

/-- Overwriting transformers compose. -/
theorem overwriting_comp {f g : Fs → Fs} (hf : Overwriting f)
    (hg : Overwriting g) : Overwriting (fun fs => g (f fs)) := by
  intro fs fs' q
  show g (f fs) q = g (f fs') q ∨ (g (f fs) q = fs q ∧ g (f fs') q = fs' q)
  rcases hg (f fs) (f fs') q with h | ⟨h1, h2⟩
  · exact Or.inl h
  · rcases hf fs fs' q with h' | ⟨h1', h2'⟩
    · exact Or.inl (by rw [h1, h2, h'])
    · exact Or.inr ⟨by rw [h1, h1'], by rw [h2, h2']⟩

/-- The filesystem effect of `save_notepad_content` is overwriting: at the
target path it either forces a fixed value or leaves the input alone, and
it never touches any other path. -/
theorem overwriting_save (ro : Bool) (se : Option Exc) (wa : Bool)
    (path content : String) :
    Overwriting (fun fs => (save_notepad_content ro se wa path content fs).fs) := by
  intro fs fs' q
  by_cases hq : q = path
  · subst hq
    cases se with
    | none => exact Or.inl (by simp [save_notepad_content, fsWrite])
    | some e =>
      cases wa with
      | true => exact Or.inl (by simp [save_notepad_content, fsWrite])
      | false =>
        cases ro with
        | false =>
          exact Or.inr (by simp [save_notepad_content, preDeleteFs_false])
        | true =>
          exact Or.inl (by simp [save_notepad_content, preDeleteFs_true_self])
  · cases se with
    | none =>
      exact Or.inr (by simp [save_notepad_content, fsWrite, hq, preDeleteFs_ne _ _ _ _ hq])
    | some e =>
      cases wa <;>
        exact Or.inr (by simp [save_notepad_content, fsWrite, hq, preDeleteFs_ne _ _ _ _ hq])

/-- The outcome of `save_notepad_content` does not depend on the incoming
filesystem. -/
theorem save_result_fs_const (ro : Bool) (se : Option Exc) (wa : Bool)
    (path content : String) (fs fs' : Fs) :
    (save_notepad_content ro se wa path content fs).result
      = (save_notepad_content ro se wa path content fs').result := by
  cases se <;> rfl

/-- The outcome of `process_post` does not depend on the incoming
filesystem: no step's control flow reads the sink. -/
theorem process_post_result_fs_const (env : PostEnv) (ma dm : Nat)
    (dir : String) (p : Post) (fs fs' : Fs) :
    (process_post env ma dm dir p fs).result
      = (process_post env ma dm dir p fs').result := by
  unfold process_post
  rcases hl : (launch_notepad_with_retry env.launchExc ma dm).result with e | n
  · simp [hl]
  · rcases ht : (type_text_into_notepad env.resolveExc env.typeExc).result
      with e | u
    · simp [hl, ht]
    · rcases hs : env.saveExc with _ | e <;>
        simp [hl, ht, hs, save_notepad_content]

/-- The filesystem effect of `process_post` is overwriting. -/
theorem overwriting_process_post (env : PostEnv) (ma dm : Nat)
    (dir : String) (p : Post) :
    Overwriting (fun fs => (process_post env ma dm dir p fs).fs) := by
  intro fs fs' q
  unfold process_post
  rcases hl : (launch_notepad_with_retry env.launchExc ma dm).result with e | n
  · simp [hl]
  · rcases ht : (type_text_into_notepad env.resolveExc env.typeExc).result
      with e | u
    · simp [hl, ht]
    · have hsv := overwriting_save env.removeOk env.saveExc env.wroteAnyway
        (outputPath dir p)
        (bufferAfterType (postBody p) env.typeExc env.faultText) fs fs' q
      have hres := save_result_fs_const env.removeOk env.saveExc
        env.wroteAnyway (outputPath dir p)
        (bufferAfterType (postBody p) env.typeExc env.faultText) fs fs'
      rcases hs : (save_notepad_content env.removeOk env.saveExc
          env.wroteAnyway (outputPath dir p)
          (bufferAfterType (postBody p) env.typeExc env.faultText) fs).result
        with e | u
      · have hs' := hres ▸ hs
        simpa [hl, ht, hs, hs'] using hsv
      · have hs' := hres ▸ hs
        simpa [hl, ht, hs, hs'] using hsv

/-- The filesystem effect of the record loop is overwriting. -/
theorem overwriting_mainLoop (ma dm : Nat) (dir : String) :
    ∀ items : List (Post × PostEnv),
    Overwriting (fun fs => (mainLoop ma dm dir items fs).fs) := by
  intro items
  induction items with
  | nil => intro fs fs' q; exact Or.inr ⟨rfl, rfl⟩
  | cons hd tl ih =>
    obtain ⟨p, env⟩ := hd
    intro fs fs' q
    have hres := process_post_result_fs_const env ma dm dir p fs fs'
    have hcomp := overwriting_comp (overwriting_process_post env ma dm dir p)
      ih fs fs' q
    have hpp := overwriting_process_post env ma dm dir p fs fs' q
    rcases hr : (process_post env ma dm dir p fs).result with e | u
    · have hr' : (process_post env ma dm dir p fs').result = .error e :=
        hres ▸ hr
      by_cases he : e = Exc.appStartError
      · subst he
        simpa [mainLoop, hr, hr'] using hpp
      · simpa [mainLoop, hr, hr', he] using hcomp
    · have hr' : (process_post env ma dm dir p fs').result = .ok u :=
        hres ▸ hr
      simpa [mainLoop, hr, hr'] using hcomp

/-- The filesystem a run leaves behind equals the one its loop leaves. -/
theorem mainRun_ok_fs (ma dm : Nat) (dir : String) (benv : BatchEnv)
    (items : List (Post × PostEnv)) (fs : Fs) :
    (mainRun ma dm dir benv (.ok items) fs).fs
      = (mainLoop ma dm dir items fs).fs := by
  simp only [mainRun]
  split <;> rfl

/-- The launch loop never emits a completion summary line. -/
theorem countCompleted_launchGo (env : Nat → Option Exc) (dm ma : Nat) :
    ∀ (remaining attempt : Nat),
    ((launchGo env dm ma attempt remaining).logs.countP isCompletedMsg) = 0 := by
  intro remaining
  induction remaining with
  | zero => intro attempt; rfl
  | succ m ih =>
    intro attempt
    cases he : env attempt with
    | none => simp [launchGo, he, isCompletedMsg]
    | some e =>
      by_cases h1 : e = Exc.appStartError
      · simp [launchGo, he, h1]
      · by_cases h2 : e.isLaunchRecoverable = true
        · simp [launchGo, he, h1, h2, isCompletedMsg, ih]
        · simp [launchGo, he, h1, h2]

/-- The type step never emits a completion summary line. -/
theorem countCompleted_type (re te : Option Exc) :
    ((type_text_into_notepad re te).logs.countP isCompletedMsg) = 0 := by
  rcases re with _ | e
  · rcases te with _ | e
    · rfl
    · by_cases h : e.isTypeCaught = true <;>
        simp [type_text_into_notepad, h, isCompletedMsg]
  · rfl

/-- The save step never emits a completion summary line. -/
theorem countCompleted_save (ro : Bool) (se : Option Exc) (wa : Bool)
    (path c : String) (fs : Fs) :
    ((save_notepad_content ro se wa path c fs).logs.countP isCompletedMsg)
      = 0 := by
  cases se <;> simp [save_notepad_content, isCompletedMsg]

/-- The close step never emits a completion summary line. -/
theorem countCompleted_close (ce : Option Exc) :
    ((close_notepad ce).logs.countP isCompletedMsg) = 0 := by
  cases ce <;> simp [close_notepad, isCompletedMsg]

/-- `process_post` never emits a completion summary line. -/
theorem countCompleted_process_post (env : PostEnv) (ma dm : Nat)
    (dir : String) (p : Post) (fs : Fs) :
    ((process_post env ma dm dir p fs).logs.countP isCompletedMsg) = 0 := by
  have hla : ((launch_notepad_with_retry env.launchExc ma dm).logs.countP
      isCompletedMsg) = 0 := countCompleted_launchGo env.launchExc dm ma ma 1
  unfold process_post
  rcases hl : (launch_notepad_with_retry env.launchExc ma dm).result with e | n
  · simpa [hl] using hla
  · rcases ht : (type_text_into_notepad env.resolveExc env.typeExc).result
      with e | u
    · simp [hl, ht, List.countP_append, hla,
        countCompleted_type env.resolveExc env.typeExc,
        countCompleted_close env.closeExc]
    · rcases hs : (save_notepad_content env.removeOk env.saveExc
          env.wroteAnyway (outputPath dir p)
          (bufferAfterType (postBody p) env.typeExc env.faultText) fs).result
        with e | u
      · simp [hl, ht, hs, List.countP_append, hla,
          countCompleted_type env.resolveExc env.typeExc,
          countCompleted_save env.removeOk env.saveExc env.wroteAnyway,
          countCompleted_close env.closeExc]
      · simp [hl, ht, hs, List.countP_append, hla,
          countCompleted_type env.resolveExc env.typeExc,
          countCompleted_save env.removeOk env.saveExc env.wroteAnyway,
          countCompleted_close env.closeExc, isCompletedMsg]

/-- The record loop never emits a completion summary line. -/
theorem countCompleted_mainLoop (ma dm : Nat) (dir : String) :
    ∀ (items : List (Post × PostEnv)) (fs : Fs),
    ((mainLoop ma dm dir items fs).logs.countP isCompletedMsg) = 0 := by
  intro items
  induction items with
  | nil => intro fs; rfl
  | cons hd tl ih =>
    intro fs
    obtain ⟨p, env⟩ := hd
    rcases hr : (process_post env ma dm dir p fs).result with e | u
    · by_cases he : e = Exc.appStartError
      · simp [mainLoop, hr, he, List.countP_append,
          countCompleted_process_post, isCompletedMsg]
      · simp [mainLoop, hr, he, List.countP_append,
          countCompleted_process_post, ih, isCompletedMsg, failLog]
    · simp [mainLoop, hr, List.countP_append,
        countCompleted_process_post, ih]

/-- The stray-window cleanup never emits a completion summary line. -/
theorem countCompleted_close_all (benv : BatchEnv) :
    ((close_all_open_notepads benv).countP isCompletedMsg) = 0 := by
  unfold close_all_open_notepads
  split
  · rw [List.countP_eq_zero]
    intro l hl
    obtain ⟨o, _, ho⟩ := List.mem_filterMap.mp hl
    rcases o with _ | e
    · simp at ho
    · simp at ho
      simp [← ho, isCompletedMsg]
  · rfl

/-! ## Claim theorems -/

/-- C1: contrary to the claim (and to the source's own comment on line 90,
`basic retry for robustness`, and log text on line 108, `failed on retry`),
`save_notepad_content` performs no retry whatsoever: the keystroke script
is invoked exactly once per save invocation, and the FIRST exception it
raises already propagates out of the save step. -/
theorem save_no_retry_first_exception_propagates (ro wa : Bool) (e : Exc)
    (path content : String) (fs : Fs) :
    (save_notepad_content ro (some e) wa path content fs).result
      = .error e ∧
    (save_notepad_content ro (some e) wa path content fs).keystrokeCalls
      = 1 ∧
    (save_notepad_content ro none wa path content fs).keystrokeCalls = 1 :=
  ⟨rfl, rfl, rfl⟩

/-- C6: the output path is a deterministic function of the record id (two
records with the same id map to the same path), and a pre-existing file at
that path is deleted before the keystroke save sequence begins: even a save
whose script fails immediately leaves nothing at the path (assuming the
`os.remove` call itself succeeds). -/
theorem output_path_unique_and_predeleted (dir : String) (p q : Post)
    (hid : p.id = q.id) (e : Exc) (content : String) (fs : Fs) :
    outputPath dir p = outputPath dir q ∧
    preDeleteFs true (outputPath dir p) fs (outputPath dir p) = none ∧
    (save_notepad_content true (some e) false (outputPath dir p) content
        fs).fs (outputPath dir p) = none := by
  refine ⟨by simp [outputPath, postIdStr, hid], preDeleteFs_true_self _ _, ?_⟩
  simp [save_notepad_content, preDeleteFs_true_self]

/-- Witness for C6 at concrete inputs. -/
theorem output_path_unique_and_predeleted_witness :
    outputPath "out" ⟨some 7, some "x"⟩ = outputPath "out" ⟨some 7, none⟩ ∧
    preDeleteFs true (outputPath "out" ⟨some 7, some "x"⟩) cexOldFileFs
      (outputPath "out" ⟨some 7, some "x"⟩) = none ∧
    (save_notepad_content true (some .osError) false
        (outputPath "out" ⟨some 7, some "x"⟩) "c" cexOldFileFs).fs
      (outputPath "out" ⟨some 7, some "x"⟩) = none :=
  output_path_unique_and_predeleted "out" ⟨some 7, some "x"⟩ ⟨some 7, none⟩
    rfl .osError "c" cexOldFileFs

/-- C7 counterexample: a timeout raised while resolving the editor window
(`top_window` / `wait("ready")`, lines 67-68) propagates out of the type
step with no log, because those calls sit outside the `try` block — the
claim that every element-not-found/timeout failure is logged and swallowed
is false. -/
theorem type_resolve_timeout_raises :
    (type_text_into_notepad (some .timeoutFault) none).result
      = .error .timeoutFault ∧
    (type_text_into_notepad (some .timeoutFault) none).logs = [] :=
  ⟨rfl, rfl⟩

/-- C7 amended: an element-not-found/timeout failure raised while focusing
the window or delivering keystrokes (inside the `try`, lines 70-75) is
logged as a warning and swallowed, so the record does not fail; but a
failure raised while resolving the top window or waiting for it to become
ready propagates out of the step. -/
theorem type_focus_failures_soft (e : Exc) (he : e.isTypeCaught = true)
    (env : PostEnv) (ma dm : Nat) (dir : String) (p : Post) (fs : Fs)
    (h1 : env.launchExc 1 = none) (hma : 1 ≤ ma)
    (h2 : env.resolveExc = none) (h3 : env.typeExc = some e)
    (h4 : env.saveExc = none) :
    (type_text_into_notepad none (some e)).result = .ok () ∧
    (type_text_into_notepad none (some e)).logs
      = [⟨.warning, .typeFailed⟩] ∧
    (∀ e2, (type_text_into_notepad (some e2) none).result = .error e2) ∧
    (process_post env ma dm dir p fs).result = .ok () := by
  refine ⟨by simp [type_text_into_notepad, he],
    by simp [type_text_into_notepad, he], fun e2 => rfl, ?_⟩
  simp [process_post, launch_first_ok env.launchExc ma dm h1 hma,
    type_text_into_notepad, h2, h3, he, save_notepad_content, h4]

/-- Witness for C7's amended statement at concrete inputs. -/
theorem type_focus_failures_soft_witness :
    (type_text_into_notepad none (some .elementNotFound)).result = .ok () ∧
    (type_text_into_notepad none (some .elementNotFound)).logs
      = [⟨.warning, .typeFailed⟩] ∧
    (∀ e2, (type_text_into_notepad (some e2) none).result = .error e2) ∧
    (process_post ⟨fun _ => none, none, some .elementNotFound, "left", true,
        none, false, none⟩ 3 200 "out" cexPost1 fsEmpty).result = .ok () :=
  type_focus_failures_soft .elementNotFound rfl
    ⟨fun _ => none, none, some .elementNotFound, "left", true, none, false,
      none⟩ 3 200 "out" cexPost1 fsEmpty rfl (by decide) rfl rfl rfl

/-- C8 counterexample: in a run whose pre-save `os.remove` raises
`OSError`, an error is caught (the `except OSError: pass` of lines 87-88)
yet the run's complete log contains no line recording it at any level —
an error is silently dropped, so the claim is false. -/
theorem silent_dropped_oserror :
    cexSilentRun.silentCatches = 1 ∧
    cexSilentRun.logs
      = [⟨.info, .launched 1⟩, ⟨.info, .saved "out/post 1.txt"⟩,
          ⟨.info, .completed 1⟩] := by
  constructor <;> rfl

/-- C9: running the batch twice with an identical source (and identical
environment behaviour) yields identical final file contents — each save
deletes and fully rewrites its target, so the second run's filesystem
equals the first run's. -/
theorem run_idempotent (ma dm : Nat) (dir : String) (benv : BatchEnv)
    (items : List (Post × PostEnv)) (fs : Fs) :
    (mainRun ma dm dir benv (.ok items)
        ((mainRun ma dm dir benv (.ok items) fs).fs)).fs
      = (mainRun ma dm dir benv (.ok items) fs).fs := by
  have hov : Overwriting
      (fun g => (mainRun ma dm dir benv (.ok items) g).fs) := by
    intro g g' q
    have h := overwriting_mainLoop ma dm dir items g g' q
    simpa [mainRun_ok_fs] using h
  exact overwriting_self_comp hov fs

/-- C10: a record lacking the `id` key maps to `<dir>/post unknown.txt`, a
record lacking the `body` key has the empty string typed and saved, the
record still processes successfully, and no warning or error is logged for
the missing keys. -/
theorem missing_keys_use_defaults (env : PostEnv) (ma dm : Nat)
    (dir : String) (fs : Fs)
    (h1 : env.launchExc 1 = none) (hma : 1 ≤ ma)
    (h2 : env.resolveExc = none) (h3 : env.typeExc = none)
    (h4 : env.saveExc = none) (h5 : env.closeExc = none) :
    outputPath dir ⟨none, none⟩ = dir ++ "/" ++ "post unknown.txt" ∧
    (process_post env ma dm dir ⟨none, none⟩ fs).result = .ok () ∧
    (process_post env ma dm dir ⟨none, none⟩ fs).fs
      = fsWrite (dir ++ "/" ++ "post unknown.txt") ""
          (preDeleteFs env.removeOk (dir ++ "/" ++ "post unknown.txt") fs) ∧
    ∀ l ∈ (process_post env ma dm dir ⟨none, none⟩ fs).logs,
      l.level = .info := by
  have hpath : outputPath dir (⟨none, none⟩ : Post)
      = dir ++ "/" ++ "post unknown.txt" := rfl
  refine ⟨hpath, ?_, ?_, ?_⟩
  · simp [process_post, launch_first_ok env.launchExc ma dm h1 hma,
      type_text_into_notepad, h2, h3, save_notepad_content, h4]
  · simpa [process_post, launch_first_ok env.launchExc ma dm h1 hma,
      type_text_into_notepad, h2, h3, save_notepad_content, h4,
      bufferAfterType, postBody] using congrArg
        (fun s => fsWrite s "" (preDeleteFs env.removeOk s fs)) hpath
  · intro l hl
    simp [process_post, launch_first_ok env.launchExc ma dm h1 hma,
      type_text_into_notepad, h2, h3, save_notepad_content, h4,
      close_notepad, h5] at hl
    rcases hl with h | h <;> simp [h]

/-- Witness for C10 at concrete inputs. -/
theorem missing_keys_use_defaults_witness :
    outputPath "out" ⟨none, none⟩ = "out" ++ "/" ++ "post unknown.txt" ∧
    (process_post okEnv 3 200 "out" ⟨none, none⟩ cexOldFileFs).result
      = .ok () ∧
    (process_post okEnv 3 200 "out" ⟨none, none⟩ cexOldFileFs).fs
      = fsWrite ("out" ++ "/" ++ "post unknown.txt") ""
          (preDeleteFs okEnv.removeOk ("out" ++ "/" ++ "post unknown.txt")
            cexOldFileFs) ∧
    ∀ l ∈ (process_post okEnv 3 200 "out" ⟨none, none⟩ cexOldFileFs).logs,
      l.level = .info :=
  missing_keys_use_defaults okEnv 3 200 "out" cexOldFileFs rfl (by decide)
    rfl rfl rfl rfl

/-- C2: if launching the editor for a record raises the not-installed
`AppStartError` on its first start call, the error is not retried (exactly
one start call is made for that record), the batch aborts at once with exit
code 1, the filesystem is exactly what it was before that record (no file
written for it or any later record), and no later record is processed or
launched. -/
theorem not_installed_aborts_batch (ma dm : Nat) (dir : String)
    (benv : BatchEnv) (pre : List (Post × PostEnv)) (p : Post)
    (env : PostEnv) (rest : List (Post × PostEnv)) (fs : Fs)
    (hpre : (mainLoop ma dm dir pre fs).aborted = false)
    (h1 : env.launchExc 1 = some .appStartError) (hma : 1 ≤ ma) :
    (mainRun ma dm dir benv (.ok (pre ++ (p, env) :: rest)) fs).exitCode
      = 1 ∧
    (mainRun ma dm dir benv (.ok (pre ++ (p, env) :: rest)) fs).fs
      = (mainLoop ma dm dir pre fs).fs ∧
    (mainRun ma dm dir benv (.ok (pre ++ (p, env) :: rest)) fs).startCalls
      = (mainLoop ma dm dir pre fs).startCalls + 1 ∧
    (mainRun ma dm dir benv (.ok (pre ++ (p, env) :: rest)) fs).processed
      = pre.length + 1 ∧
    (⟨.error, .notInstalled⟩ : LogEntry)
      ∈ (mainRun ma dm dir benv (.ok (pre ++ (p, env) :: rest)) fs).logs := by
  have hpp := process_post_appStart env ma dm dir p
    (mainLoop ma dm dir pre fs).fs h1 hma
  have hcons := mainLoop_cons_appStart ma dm dir p env rest
    (mainLoop ma dm dir pre fs).fs (by rw [hpp])
  have happ := mainLoop_append_not_aborted ma dm dir pre
    ((p, env) :: rest) fs hpre
  have hlen := mainLoop_processed_eq_length ma dm dir pre fs hpre
  have heq : mainLoop ma dm dir (pre ++ (p, env) :: rest) fs
      = loopCombine (mainLoop ma dm dir pre fs)
          ⟨true, (mainLoop ma dm dir pre fs).fs,
            [⟨.error, .notInstalled⟩], 1, 1, 0⟩ := by
    rw [happ, hcons]
    simp [hpp]
  refine ⟨?_, ?_, ?_, ?_, ?_⟩ <;>
    simp [mainRun, heq, loopCombine, hlen, List.mem_append]

/-- Witness for C2: two records, the editor executable absent from the
start — zero files written, exit code 1, one start call, second record
never attempted. -/
theorem not_installed_aborts_batch_witness :
    (mainRun 3 200 "out" cexBatchEnv
        (.ok ([] ++ (cexPost1, cexAppStartEnv) :: [(cexPost2, okEnv)]))
        fsEmpty).exitCode = 1 ∧
    (mainRun 3 200 "out" cexBatchEnv
        (.ok ([] ++ (cexPost1, cexAppStartEnv) :: [(cexPost2, okEnv)]))
        fsEmpty).fs = (mainLoop 3 200 "out" [] fsEmpty).fs ∧
    (mainRun 3 200 "out" cexBatchEnv
        (.ok ([] ++ (cexPost1, cexAppStartEnv) :: [(cexPost2, okEnv)]))
        fsEmpty).startCalls
      = (mainLoop 3 200 "out" [] fsEmpty).startCalls + 1 ∧
    (mainRun 3 200 "out" cexBatchEnv
        (.ok ([] ++ (cexPost1, cexAppStartEnv) :: [(cexPost2, okEnv)]))
        fsEmpty).processed = List.length ([] : List (Post × PostEnv)) + 1 ∧
    (⟨.error, .notInstalled⟩ : LogEntry)
      ∈ (mainRun 3 200 "out" cexBatchEnv
          (.ok ([] ++ (cexPost1, cexAppStartEnv) :: [(cexPost2, okEnv)]))
          fsEmpty).logs :=
  not_installed_aborts_batch 3 200 "out" cexBatchEnv [] cexPost1
    cexAppStartEnv [(cexPost2, okEnv)] fsEmpty rfl rfl (by decide)

/-- C3: a record whose processing fails with any exception other than the
not-installed error is logged with its record identifier, every later
record is still attempted (the whole batch is processed), and the run's
exit code is 0 when nothing fatal occurred. -/
theorem per_record_failure_isolated (ma dm : Nat) (dir : String)
    (benv : BatchEnv) (pre : List (Post × PostEnv)) (p : Post)
    (env : PostEnv) (rest : List (Post × PostEnv)) (fs : Fs) (e : Exc)
    (hpre : (mainLoop ma dm dir pre fs).aborted = false)
    (hfail : (process_post env ma dm dir p
        (mainLoop ma dm dir pre fs).fs).result = .error e)
    (hne : e ≠ .appStartError)
    (hrest : (mainLoop ma dm dir rest (process_post env ma dm dir p
        (mainLoop ma dm dir pre fs).fs).fs).aborted = false) :
    failLog p
      ∈ (mainRun ma dm dir benv (.ok (pre ++ (p, env) :: rest)) fs).logs ∧
    (mainRun ma dm dir benv (.ok (pre ++ (p, env) :: rest)) fs).processed
      = pre.length + 1 + rest.length ∧
    (mainRun ma dm dir benv (.ok (pre ++ (p, env) :: rest)) fs).exitCode
      = 0 := by
  have happ := mainLoop_append_not_aborted ma dm dir pre
    ((p, env) :: rest) fs hpre
  have hcons := mainLoop_cons_failure ma dm dir p env rest
    (mainLoop ma dm dir pre fs).fs e hfail hne
  have hlenpre := mainLoop_processed_eq_length ma dm dir pre fs hpre
  have hlenrest := mainLoop_processed_eq_length ma dm dir rest _ hrest
  rw [hcons] at happ
  refine ⟨?_, ?_, ?_⟩
  · simp [mainRun, happ, loopCombine, hrest, List.mem_append]
  · simp only [mainRun, happ, loopCombine, hrest]
    simp [hlenpre, hlenrest]
    omega
  · simp [mainRun, happ, loopCombine, hrest]

/-- Witness for C3: record 1's save fails, record 2 still runs, exit 0. -/
theorem per_record_failure_isolated_witness :
    failLog cexPost1
      ∈ (mainRun 3 200 "out" cexBatchEnv
          (.ok ([] ++ (cexPost1, cexFailSaveEnv) :: [(cexPost2, okEnv)]))
          fsEmpty).logs ∧
    (mainRun 3 200 "out" cexBatchEnv
        (.ok ([] ++ (cexPost1, cexFailSaveEnv) :: [(cexPost2, okEnv)]))
        fsEmpty).processed
      = List.length ([] : List (Post × PostEnv)) + 1 + List.length [(cexPost2, okEnv)] ∧
    (mainRun 3 200 "out" cexBatchEnv
        (.ok ([] ++ (cexPost1, cexFailSaveEnv) :: [(cexPost2, okEnv)]))
        fsEmpty).exitCode = 0 :=
  per_record_failure_isolated 3 200 "out" cexBatchEnv [] cexPost1
    cexFailSaveEnv [(cexPost2, okEnv)] fsEmpty (.runtimeFault "save failed")
    rfl rfl (by decide) rfl

/-- C4: when every launch attempt fails recoverably, the launch is retried
up to `maxAttempts` times (default 3) with the fixed inter-attempt delay
(default 200ms) slept after each failure; exhaustion raises the
launch-exhausted `RuntimeError`, which makes only this record fail — the
loop logs it and continues with the remaining records. -/
theorem launch_retry_exhaustion (env : PostEnv) (ma dm : Nat) (dir : String)
    (p : Post) (rest : List (Post × PostEnv)) (fs : Fs)
    (hrec : ∀ i, 1 ≤ i → i ≤ ma →
        ∃ e, env.launchExc i = some e ∧ e.isLaunchRecoverable = true) :
    (launch_notepad_with_retry env.launchExc ma dm).result
      = .error (.runtimeFault (launchExhaustedMsg ma)) ∧
    (launch_notepad_with_retry env.launchExc ma dm).startCalls = ma ∧
    (launch_notepad_with_retry env.launchExc ma dm).sleepsMs
      = List.replicate ma dm ∧
    defaultMaxAttempts = 3 ∧ defaultDelayMs = 200 ∧
    (process_post env ma dm dir p fs).result
      = .error (.runtimeFault (launchExhaustedMsg ma)) ∧
    (mainLoop ma dm dir ((p, env) :: rest) fs).aborted
      = (mainLoop ma dm dir rest fs).aborted ∧
    (mainLoop ma dm dir ((p, env) :: rest) fs).processed
      = (mainLoop ma dm dir rest fs).processed + 1 ∧
    failLog p ∈ (mainLoop ma dm dir ((p, env) :: rest) fs).logs := by
  have hl := launch_exhausted env.launchExc ma dm hrec
  have hlr : (launch_notepad_with_retry env.launchExc ma dm).result
      = .error (.runtimeFault (launchExhaustedMsg ma)) := by rw [hl]
  have hpp := process_post_launch_error env ma dm dir p fs _ hlr
  have hne : (Exc.runtimeFault (launchExhaustedMsg ma))
      ≠ Exc.appStartError := by simp
  have hcons := mainLoop_cons_failure ma dm dir p env rest fs _
    (by rw [hpp]) hne
  refine ⟨hlr, by rw [hl], by rw [hl], rfl, rfl, by rw [hpp], ?_, ?_, ?_⟩ <;>
    simp [hcons, hpp, List.mem_append]

/-- Witness for C4: three timeouts in a row on an otherwise empty batch. -/
theorem launch_retry_exhaustion_witness :
    (launch_notepad_with_retry cexRetryEnv.launchExc 3 200).result
      = .error (.runtimeFault (launchExhaustedMsg 3)) ∧
    (launch_notepad_with_retry cexRetryEnv.launchExc 3 200).startCalls
      = 3 ∧
    (launch_notepad_with_retry cexRetryEnv.launchExc 3 200).sleepsMs
      = List.replicate 3 200 ∧
    defaultMaxAttempts = 3 ∧ defaultDelayMs = 200 ∧
    (process_post cexRetryEnv 3 200 "out" cexPost1 fsEmpty).result
      = .error (.runtimeFault (launchExhaustedMsg 3)) ∧
    (mainLoop 3 200 "out" ((cexPost1, cexRetryEnv) :: []) fsEmpty).aborted
      = (mainLoop 3 200 "out" [] fsEmpty).aborted ∧
    (mainLoop 3 200 "out" ((cexPost1, cexRetryEnv) :: []) fsEmpty).processed
      = (mainLoop 3 200 "out" [] fsEmpty).processed + 1 ∧
    failLog cexPost1
      ∈ (mainLoop 3 200 "out" ((cexPost1, cexRetryEnv) :: []) fsEmpty).logs :=
  launch_retry_exhaustion cexRetryEnv 3 200 "out" cexPost1 [] fsEmpty
    (fun _ _ _ => ⟨.timeoutFault, rfl, rfl⟩)

/-- C5 counterexample: in the concrete run `cexRun` the first record's
save script fails and the second record succeeds.  The run completes with
exit code 0; exactly one record completed the Save step (one `Saved:` log
line), yet the only per-run summary the program produces reports the
fetched count 2 — no value equal to the number of save-completed records
is produced, so the claimed `BatchResult` with a `succeeded_count` does
not exist. -/
theorem batch_result_counterexample :
    cexRun.exitCode = 0 ∧
    savedCount cexRun.logs = 1 ∧
    completedLog 2 ∈ cexRun.logs ∧
    completedLog 1 ∉ cexRun.logs := by
  refine ⟨rfl, rfl, by decide, by decide⟩

/-- C5 amended: every non-aborted run returns exit code 0 and emits
exactly one summary line, and that summary reports the number of fetched
records (the processed count) — not a count of the records whose session
completed the Save step. -/
theorem batch_summary_processed_count (ma dm : Nat) (dir : String)
    (benv : BatchEnv) (items : List (Post × PostEnv)) (fs : Fs)
    (hab : (mainLoop ma dm dir items fs).aborted = false) :
    (mainRun ma dm dir benv (.ok items) fs).exitCode = 0 ∧
    ((mainRun ma dm dir benv (.ok items) fs).logs.countP isCompletedMsg)
      = 1 ∧
    completedLog items.length ∈ (mainRun ma dm dir benv (.ok items) fs).logs ∧
    (mainRun ma dm dir benv (.ok items) fs).processed = items.length := by
  refine ⟨?_, ?_, ?_, ?_⟩
  · simp [mainRun, hab]
  · simp [mainRun, hab, List.countP_append, countCompleted_mainLoop,
      countCompleted_close_all, isCompletedMsg, completedLog]
  · simp [mainRun, hab, List.mem_append]
  · simp [mainRun, hab, mainLoop_processed_eq_length ma dm dir items fs hab]

/-- Witness for C5's amended statement on the concrete two-record run. -/
theorem batch_summary_processed_count_witness :
    (mainRun 3 200 "out" cexBatchEnv (.ok cexItems) fsEmpty).exitCode = 0 ∧
    ((mainRun 3 200 "out" cexBatchEnv
        (.ok cexItems) fsEmpty).logs.countP isCompletedMsg) = 1 ∧
    completedLog cexItems.length
      ∈ (mainRun 3 200 "out" cexBatchEnv (.ok cexItems) fsEmpty).logs ∧
    (mainRun 3 200 "out" cexBatchEnv (.ok cexItems) fsEmpty).processed
      = cexItems.length :=
  batch_summary_processed_count 3 200 "out" cexBatchEnv cexItems fsEmpty rfl

/-- C8 amended: every caught error produces a log line EXCEPT the
`OSError` swallowed by the pre-save delete (lines 87-88), which is dropped
with no log; in particular a failing keystroke save, a failing close and a
caught type failure each log, and a record-level failure is logged with
the record identifier. -/
theorem caught_errors_logged_except_predelete (ma dm : Nat) (dir : String)
    (benv : BatchEnv) (pre : List (Post × PostEnv)) (p : Post)
    (env : PostEnv) (rest : List (Post × PostEnv)) (fs : Fs) (e : Exc)
    (ro wa : Bool) (se : Option Exc) (path c : String) (g : Fs) (e2 : Exc)
    (he2 : e2.isTypeCaught = true)
    (hpre : (mainLoop ma dm dir pre fs).aborted = false)
    (hfail : (process_post env ma dm dir p
        (mainLoop ma dm dir pre fs).fs).result = .error e)
    (hne : e ≠ .appStartError) :
    (save_notepad_content ro se wa path c g).silentCatches
      = (if (g path).isSome ∧ ro = false then 1 else 0) ∧
    (save_notepad_content ro (some e2) wa path c g).logs
      = [⟨.error, .saveRetryFailed⟩] ∧
    (close_notepad (some e2)).logs = [⟨.warning, .closeFailed⟩] ∧
    (type_text_into_notepad none (some e2)).logs
      = [⟨.warning, .typeFailed⟩] ∧
    failLog p
      ∈ (mainRun ma dm dir benv (.ok (pre ++ (p, env) :: rest)) fs).logs := by
  refine ⟨?_, ?_, rfl, by simp [type_text_into_notepad, he2], ?_⟩
  · cases se <;> cases hgp : g path <;> cases ro <;>
      simp [save_notepad_content, preDeleteSilent, hgp]
  · cases wa <;> rfl
  · have happ := mainLoop_append_not_aborted ma dm dir pre
      ((p, env) :: rest) fs hpre
    have hcons := mainLoop_cons_failure ma dm dir p env rest
      (mainLoop ma dm dir pre fs).fs e hfail hne
    apply mainRun_ok_logs_mem
    rw [happ, hcons]
    simp [loopCombine, List.mem_append]

/-- Witness for C8's amended statement at concrete inputs. -/
theorem caught_errors_logged_except_predelete_witness :
    (save_notepad_content false none false "out/post 1.txt" "c"
        cexOldFileFs).silentCatches
      = (if (cexOldFileFs "out/post 1.txt").isSome ∧ false = false
          then 1 else 0) ∧
    (save_notepad_content false (some .timeoutFault) false "out/post 1.txt"
        "c" cexOldFileFs).logs = [⟨.error, .saveRetryFailed⟩] ∧
    (close_notepad (some .timeoutFault)).logs
      = [⟨.warning, .closeFailed⟩] ∧
    (type_text_into_notepad none (some .timeoutFault)).logs
      = [⟨.warning, .typeFailed⟩] ∧
    failLog cexPost1
      ∈ (mainRun 3 200 "out" cexBatchEnv
          (.ok ([] ++ (cexPost1, cexFailSaveEnv) :: [])) fsEmpty).logs :=
  caught_errors_logged_except_predelete 3 200 "out" cexBatchEnv []
    cexPost1 cexFailSaveEnv [] fsEmpty (.runtimeFault "save failed")
    false false none "out/post 1.txt" "c" cexOldFileFs .timeoutFault
    rfl rfl rfl (by decide)

end DataEntryBot
